import Mathlib

/-!
Shallow embedding of the Apple SPI keyboard driver
(`drivers/input/apple_spi_kbd.c`): the transport framing check, the
report state differ (`apple_spi_kbd_service_modifiers` /
`apple_spi_kbd_service_key` as driven by `apple_spi_kbd_check`), and the
keycode-to-character translation tables, together with theorems about
them.  Machine bytes are modelled as `Nat` (all values involved stay
below 256; no arithmetic overflows occur in the modelled code paths).
-/

namespace AppleSpiKbd

/-! ### Constants from the source -/

/-- Modifier key bit `BIT(0)` = 0x01. -/
def HID_MOD_LEFTCTRL : Nat := 2 ^ 0
/-- Modifier key bit `BIT(1)` = 0x02. -/
def HID_MOD_LEFTSHIFT : Nat := 2 ^ 1
/-- Modifier key bit `BIT(4)` = 0x10. -/
def HID_MOD_RIGHTCTRL : Nat := 2 ^ 4
/-- Modifier key bit `BIT(5)` = 0x20. -/
def HID_MOD_RIGHTSHIFT : Nat := 2 ^ 5

/-- Modifier key code for left ctrl. -/
def HID_KEY_LEFTCTRL : Nat := 0xe0
/-- Modifier key code for left shift. -/
def HID_KEY_LEFTSHIFT : Nat := 0xe1
/-- Modifier key code for right ctrl. -/
def HID_KEY_RIGHTCTRL : Nat := 0xe4
/-- Modifier key code for right shift. -/
def HID_KEY_RIGHTSHIFT : Nat := 0xe5

/-- Report ID used for keyboard input reports. -/
def KBD_REPORTID : Nat := 0x01
/-- Keyboard device id. -/
def KBD_DEVICE : Nat := 0x01
/-- Packet flags value marking a read packet. -/
def PACKET_READ : Nat := 0x20
/-- Message type of an input report. -/
def MSG_REPORT : Nat := 0x10

/-! ### Data model -/

/-- `struct apple_spi_kbd_report`: report id, modifier bitmask, reserved
byte, six keycode slots (modelled as a list, length 6 for well-formed
reports) and the vendor `fn` byte. -/
structure Report where
  reportid : Nat
  modifiers : Nat
  reserved : Nat
  keycode : List Nat
  fn : Nat
deriving DecidableEq, Repr

/-- One key transition handed to `input_add_keycode`.  The C helper takes
a `release` flag; we record the equivalent `pressed` flag. -/
structure KeyEvent where
  keycode : Nat
  pressed : Bool
deriving DecidableEq, Repr

/-- `input_add_keycode(input, keycode, release)` as the event it queues:
`pressed` is the negation of the `release` argument. -/
def input_add_keycode (keycode : Nat) (release : Bool) : KeyEvent :=
  ⟨keycode, !release⟩

/-! ### State differ -/

/-- `apple_spi_kbd_service_modifiers`: compares the old and new modifier
bytes bit by bit (left ctrl, right ctrl, left shift, right shift, in the
order of the source's `if` chain) and queues one event per changed bit,
with `release = old & bit`. -/
def apple_spi_kbd_service_modifiers (old new : Nat) : List KeyEvent :=
  (if (new ^^^ old) &&& HID_MOD_LEFTCTRL != 0 then
    [input_add_keycode HID_KEY_LEFTCTRL (old &&& HID_MOD_LEFTCTRL != 0)]
  else []) ++
  (if (new ^^^ old) &&& HID_MOD_RIGHTCTRL != 0 then
    [input_add_keycode HID_KEY_RIGHTCTRL (old &&& HID_MOD_RIGHTCTRL != 0)]
  else []) ++
  (if (new ^^^ old) &&& HID_MOD_LEFTSHIFT != 0 then
    [input_add_keycode HID_KEY_LEFTSHIFT (old &&& HID_MOD_LEFTSHIFT != 0)]
  else []) ++
  (if (new ^^^ old) &&& HID_MOD_RIGHTSHIFT != 0 then
    [input_add_keycode HID_KEY_RIGHTSHIFT (old &&& HID_MOD_RIGHTSHIFT != 0)]
  else [])

/-- `memscan(buf, v, size) == buf + size`, i.e. value `v` occurs nowhere
in the scanned keycode array. -/
def memscan_missing (buf : List Nat) (v : Nat) : Bool :=
  !(buf.contains v)

/-- `apple_spi_kbd_service_key(input, i, released)`: for a release the
scanned array is the new keycodes and the indexed array the old ones; for
a press the two roles are swapped.  If `old[i]` occurs nowhere in the
scanned array, queue `(old[i], released)`. -/
def apple_spi_kbd_service_key (oldk newk : List Nat) (i : Nat)
    (released : Bool) : List KeyEvent :=
  let n := if released then newk else oldk
  let o := if released then oldk else newk
  if memscan_missing n (o.getD i 0) then
    [input_add_keycode (o.getD i 0) released]
  else []

/-- The key-slot loop of `apple_spi_kbd_check`: for each of the six slot
indices, first the release check, then the press check. -/
def apple_spi_kbd_service_keys (oldk newk : List Nat) : List KeyEvent :=
  (List.range 6).flatMap fun i =>
    apple_spi_kbd_service_key oldk newk i true ++
    apple_spi_kbd_service_key oldk newk i false

/-- The full event sequence produced by one accepted report: modifier
transitions first, then the six key slots. -/
def apple_spi_kbd_diff (old new : Report) : List KeyEvent :=
  apple_spi_kbd_service_modifiers old.modifiers new.modifiers ++
  apple_spi_kbd_service_keys old.keycode new.keycode

/-! ### Transport framer -/

/-- `struct apple_spi_kbd_packet` after the SPI transfer: typed header
fields and the 246 raw payload bytes (`data`), in which the message and
report are decoded at fixed offsets. -/
structure Packet where
  flags : Nat
  device : Nat
  offset : Nat
  remaining : Nat
  len : Nat
  data : List Nat
  crc : Nat
deriving DecidableEq, Repr

/-- The report cast out of the message payload: `msg->data` starts at
byte 8 of `packet.data` (the message header is 8 bytes), and the report
fields follow the layout of `struct apple_spi_kbd_report`. -/
def parseReport (d : List Nat) : Report :=
  { reportid := d.getD 8 0
    modifiers := d.getD 9 0
    reserved := d.getD 10 0
    keycode := [d.getD 11 0, d.getD 12 0, d.getD 13 0,
                d.getD 14 0, d.getD 15 0, d.getD 16 0]
    fn := d.getD 17 0 }

/-- Little-endian `u16` at offset 6 of the packet payload:
`msg->cmdlen`. -/
def msgCmdlen (d : List Nat) : Nat :=
  d.getD 6 0 + 256 * d.getD 7 0

/-- The validation in `apple_spi_kbd_check` (lines 182–185): flags,
packet device, message type, message device, cmdlen equal to
`sizeof(struct apple_spi_kbd_report)` (10 bytes) and report id, all
checked; on success the report is copied out of the buffer. -/
def frame (p : Packet) : Option Report :=
  if p.flags = PACKET_READ ∧ p.device = KBD_DEVICE ∧
      p.data.getD 0 0 = MSG_REPORT ∧ p.data.getD 1 0 = KBD_DEVICE ∧
      msgCmdlen p.data = 10 ∧ (parseReport p.data).reportid = KBD_REPORTID
  then some (parseReport p.data)
  else none

/-- `struct apple_spi_kbd_priv` minus the GPIO handle: the stored old and
new reports. -/
structure Priv where
  old : Report
  new : Report
deriving DecidableEq, Repr

/-- `apple_spi_kbd_check` after the SPI transfer succeeded, with the
received packet as argument: on a valid frame it copies the report into
`priv->new`, services modifiers and the six key slots, copies `priv->new`
into `priv->old` and returns 1; otherwise it changes nothing, emits
nothing and returns 0.  Result: (new priv state, queued events, return
value). -/
def apple_spi_kbd_check (priv : Priv) (p : Packet) :
    Priv × List KeyEvent × Nat :=
  match frame p with
  | some report =>
      (⟨report, report⟩, apple_spi_kbd_diff priv.old report, 1)
  | none => (priv, [], 0)

/-! ### Translation tables (byte values; printable entries are the ASCII
codes of the characters in the source arrays) -/

/-- `hid_kbd_plain_xlate` from the source, as byte values. -/
def hid_kbd_plain_xlate : List Nat :=
  [0xff, 0xff, 0xff, 0xff, 0x61, 0x62, 0x63, 0x64,
   0x65, 0x66, 0x67, 0x68, 0x69, 0x6a, 0x6b, 0x6c,
   0x6d, 0x6e, 0x6f, 0x70, 0x71, 0x72, 0x73, 0x74,
   0x75, 0x76, 0x77, 0x78, 0x79, 0x7a, 0x31, 0x32,
   0x33, 0x34, 0x35, 0x36, 0x37, 0x38, 0x39, 0x30,
   0x0d, 0x1b, 0x08, 0x09, 0x20, 0x2d, 0x3d, 0x5b,
   0x5d, 0x5c, 0x23, 0x3b, 0x27, 0x60, 0x2c, 0x2e,
   0x2f]

/-- `hid_kbd_shift_xlate` from the source, as byte values. -/
def hid_kbd_shift_xlate : List Nat :=
  [0xff, 0xff, 0xff, 0xff, 0x41, 0x42, 0x43, 0x44,
   0x45, 0x46, 0x47, 0x48, 0x49, 0x4a, 0x4b, 0x4c,
   0x4d, 0x4e, 0x4f, 0x50, 0x51, 0x52, 0x53, 0x54,
   0x55, 0x56, 0x57, 0x58, 0x59, 0x5a, 0x21, 0x40,
   0x23, 0x24, 0x25, 0x5e, 0x26, 0x2a, 0x28, 0x29,
   0x0d, 0x1b, 0x08, 0x09, 0x20, 0x5f, 0x2b, 0x7b,
   0x7d, 0x7c, 0x7e, 0x3a, 0x22, 0x7e, 0x3c, 0x3e,
   0x3f]

/-- `hid_kbd_ctrl_xlate` from the source, as byte values. -/
def hid_kbd_ctrl_xlate : List Nat :=
  [0xff, 0xff, 0xff, 0xff, 0x01, 0x02, 0x03, 0x04,
   0x05, 0x06, 0x07, 0x08, 0x09, 0x0a, 0x0b, 0x0c,
   0x0d, 0x0e, 0x0f, 0x10, 0x11, 0x12, 0x13, 0x14,
   0x15, 0x16, 0x17, 0x18, 0x19, 0x1a, 0x31, 0x00,
   0x33, 0x34, 0x35, 0x1e, 0x37, 0x38, 0x39, 0x30,
   0x0d, 0x1b, 0x08, 0x09, 0x20, 0x1f, 0x3d, 0x1b,
   0x1d, 0x1c, 0x23, 0x3b, 0x27, 0x60, 0x2c, 0x2e,
   0x2f]

/-- Modelled from the spec: the table-selection step of the keycode
translator.  The code performing the selection (`process_modifiers` in
`drivers/input/input.c`) is not under `src/`; only the registration
calls in `apple_spi_kbd_probe` are.  Per the spec's priority rule, any
ctrl modifier bit selects the ctrl table, otherwise any shift modifier
bit selects the shift table, otherwise the plain table is used.  The
three tables themselves are the source arrays above. -/
def selectTable (modifiers : Nat) : List Nat :=
  if modifiers &&& (HID_MOD_LEFTCTRL ||| HID_MOD_RIGHTCTRL) != 0 then
    hid_kbd_ctrl_xlate
  else if modifiers &&& (HID_MOD_LEFTSHIFT ||| HID_MOD_RIGHTSHIFT) != 0 then
    hid_kbd_shift_xlate
  else hid_kbd_plain_xlate

/-- Modelled from the spec: the keycode-to-character translation
(`input_keycode_to_ch` in `drivers/input/input.c` is not under `src/`).
The selected table is indexed by the keycode directly — the source
arrays carry the four leading `0xff` sentinel entries for keycodes 0–3
themselves, and the spec's own test vectors (`translate(4, none) = a`)
require this indexing — a keycode at or beyond the 57 table entries has
no mapping, and an entry equal to the sentinel `0xff` means no
mapping. -/
def kbd_translate (keycode : Nat) (modifiers : Nat) : Option Nat :=
  match (selectTable modifiers)[keycode]? with
  | none => none
  | some c => if c = 0xff then none else some c

/-! ### Spec-side formulations, for refinement comparisons -/

/-- The spec's description of one modifier transition: if bit `k`
differs between the previous and current modifier bytes, one event with
the bit's fixed keycode identity and `pressed` equal to the bit's new
value. -/
def modEventSpec (prevm curm : Nat) (k : Nat) (kc : Nat) : List KeyEvent :=
  if prevm.testBit k != curm.testBit k then [⟨kc, curm.testBit k⟩] else []

/-- The spec's release rule for slot `i`: if the previous slot's value
appears nowhere in the current array, one release event for it. -/
def releaseEventSpec (prevk curk : List Nat) (i : Nat) : List KeyEvent :=
  if curk.contains (prevk.getD i 0) then [] else [⟨prevk.getD i 0, false⟩]

/-- The spec's press rule for slot `i`: if the current slot's value
appears nowhere in the previous array, one press event for it. -/
def pressEventSpec (prevk curk : List Nat) (i : Nat) : List KeyEvent :=
  if prevk.contains (curk.getD i 0) then [] else [⟨curk.getD i 0, true⟩]

/-- The differ as the spec describes it: modifier transitions in the
fixed order left-ctrl (bit 0, key 0xe0), right-ctrl (bit 4, key 0xe4),
left-shift (bit 1, key 0xe1), right-shift (bit 5, key 0xe5), then the
six key slots in array order, each slot's release check before its press
check. -/
def diffSpec (prev cur : Report) : List KeyEvent :=
  (modEventSpec prev.modifiers cur.modifiers 0 HID_KEY_LEFTCTRL ++
   modEventSpec prev.modifiers cur.modifiers 4 HID_KEY_RIGHTCTRL ++
   modEventSpec prev.modifiers cur.modifiers 1 HID_KEY_LEFTSHIFT ++
   modEventSpec prev.modifiers cur.modifiers 5 HID_KEY_RIGHTSHIFT) ++
  ((List.range 6).flatMap fun i =>
    releaseEventSpec prev.keycode cur.keycode i ++
    pressEventSpec prev.keycode cur.keycode i)

/-- The character lookup exactly as the spec words it, for comparison
with `kbd_translate`: `table (keycode - 4)` when the keycode falls in
[4, 60], nothing otherwise, and the sentinel `0xff` yields nothing. -/
def lookupSpecC9 (keycode : Nat) (modifiers : Nat) : Option Nat :=
  if 4 ≤ keycode ∧ keycode ≤ 60 then
    match (selectTable modifiers)[keycode - 4]? with
    | none => none
    | some c => if c = 0xff then none else some c
  else none

end AppleSpiKbd

/-! ### Helper lemmas -/

namespace AppleSpiKbd

/-- Testing a single-bit mask with `&&&` is testing the bit. -/
lemma and_mask_bne (x k : Nat) : (x &&& 2 ^ k != 0) = x.testBit k := by
  rw [Nat.and_two_pow]
  cases h : x.testBit k <;>
    simp [h, Nat.pos_iff_ne_zero.mp (Nat.two_pow_pos k)]

/-- One branch of `apple_spi_kbd_service_modifiers` equals the spec's
modifier-transition rule for that bit. -/
lemma service_mod_segment (oldm newm k kc : Nat) :
    (if (newm ^^^ oldm) &&& 2 ^ k != 0 then
      [input_add_keycode kc (oldm &&& 2 ^ k != 0)]
    else []) = modEventSpec oldm newm k kc := by
  rw [modEventSpec, and_mask_bne, and_mask_bne, Nat.testBit_xor]
  cases ho : oldm.testBit k <;> cases hn : newm.testBit k <;>
    simp [input_add_keycode]

/-- The release branch of `apple_spi_kbd_service_key` equals the spec's
release rule. -/
lemma service_key_rel (oldk newk : List Nat) (i : Nat) :
    apple_spi_kbd_service_key oldk newk i true =
      releaseEventSpec oldk newk i := by
  rw [apple_spi_kbd_service_key, releaseEventSpec]
  cases h : newk.contains (oldk.getD i 0) <;>
    simp [h, memscan_missing, input_add_keycode, List.elem_iff,
      List.getD] <;> simpa [List.elem_iff, List.getD] using h

/-- The press branch of `apple_spi_kbd_service_key` equals the spec's
press rule. -/
lemma service_key_prs (oldk newk : List Nat) (i : Nat) :
    apple_spi_kbd_service_key oldk newk i false =
      pressEventSpec oldk newk i := by
  rw [apple_spi_kbd_service_key, pressEventSpec]
  cases h : oldk.contains (newk.getD i 0) <;>
    simp [h, memscan_missing, input_add_keycode, List.elem_iff,
      List.getD] <;> simpa [List.elem_iff, List.getD] using h

/-- The source differ coincides with the spec-side differ. -/
lemma diff_eq_diffSpec (a b : Report) :
    apple_spi_kbd_diff a b = diffSpec a b := by
  rw [apple_spi_kbd_diff, diffSpec, apple_spi_kbd_service_modifiers,
    apple_spi_kbd_service_keys]
  rw [HID_MOD_LEFTCTRL, HID_MOD_RIGHTCTRL, HID_MOD_LEFTSHIFT,
    HID_MOD_RIGHTSHIFT]
  rw [service_mod_segment, service_mod_segment, service_mod_segment,
    service_mod_segment]
  congr 1
  refine List.flatMap_congr (fun i _ => ?_)
  rw [service_key_rel, service_key_prs]

/-- The release events of the key-slot loop are exactly the previous
slots whose value is missing from the current array, in slot order. -/
lemma filter_keys_not_pressed (idxs ka kb : List Nat) :
    ((idxs.flatMap fun i =>
        apple_spi_kbd_service_key ka kb i true ++
        apple_spi_kbd_service_key ka kb i false).filter
      fun e => !e.pressed)
    = (idxs.filter fun i => !(kb.contains (ka.getD i 0))).map
        fun i => (⟨ka.getD i 0, false⟩ : KeyEvent) := by
  induction idxs with
  | nil => rfl
  | cons j rest ih =>
    rw [List.flatMap_cons, List.filter_append, List.filter_append, ih,
      List.filter_cons, service_key_rel, service_key_prs,
      releaseEventSpec, pressEventSpec]
    by_cases h1 : ka.getD j 0 ∈ kb <;>
      by_cases h2 : kb.getD j 0 ∈ ka <;>
        simp only [List.getD, List.get?_eq_getElem?] at h1 h2 <;>
          simp [h1, h2]

/-- The press events of the key-slot loop are exactly the current slots
whose value is missing from the previous array, in slot order. -/
lemma filter_keys_pressed (idxs ka kb : List Nat) :
    ((idxs.flatMap fun i =>
        apple_spi_kbd_service_key ka kb i true ++
        apple_spi_kbd_service_key ka kb i false).filter
      fun e => e.pressed)
    = (idxs.filter fun i => !(ka.contains (kb.getD i 0))).map
        fun i => (⟨kb.getD i 0, true⟩ : KeyEvent) := by
  induction idxs with
  | nil => rfl
  | cons j rest ih =>
    rw [List.flatMap_cons, List.filter_append, List.filter_append, ih,
      List.filter_cons, service_key_rel, service_key_prs,
      releaseEventSpec, pressEventSpec]
    by_cases h1 : ka.getD j 0 ∈ kb <;>
      by_cases h2 : kb.getD j 0 ∈ ka <;>
        simp only [List.getD, List.get?_eq_getElem?] at h1 h2 <;>
          simp [h1, h2]

/-- Per-bit symmetry of the modifier events: the release event that
`diff a b` produces on a bit is the press event that `diff b a` produces
on it, with the flag inverted. -/
lemma filter_mod_segment_rel (am bm k kc : Nat) :
    ((if (bm ^^^ am) &&& 2 ^ k != 0 then
        [input_add_keycode kc (am &&& 2 ^ k != 0)] else []).filter
      fun e => !e.pressed)
    = (((if (am ^^^ bm) &&& 2 ^ k != 0 then
        [input_add_keycode kc (bm &&& 2 ^ k != 0)] else []).filter
      fun e => e.pressed).map
        fun e => (⟨e.keycode, !e.pressed⟩ : KeyEvent)) := by
  rw [and_mask_bne, and_mask_bne, and_mask_bne, and_mask_bne,
    Nat.testBit_xor, Nat.testBit_xor]
  cases ha : am.testBit k <;> cases hb : bm.testBit k <;>
    simp [input_add_keycode]

/-- Symmetry of the modifier servicing: releases of one direction are
the flag-inverted presses of the other. -/
lemma filter_mods_not_pressed (am bm : Nat) :
    ((apple_spi_kbd_service_modifiers am bm).filter fun e => !e.pressed)
    = (((apple_spi_kbd_service_modifiers bm am).filter
        fun e => e.pressed).map
          fun e => (⟨e.keycode, !e.pressed⟩ : KeyEvent)) := by
  rw [apple_spi_kbd_service_modifiers, apple_spi_kbd_service_modifiers,
    HID_MOD_LEFTCTRL, HID_MOD_RIGHTCTRL, HID_MOD_LEFTSHIFT,
    HID_MOD_RIGHTSHIFT]
  rw [List.filter_append, List.filter_append, List.filter_append,
    List.filter_append, List.filter_append, List.filter_append,
    List.map_append, List.map_append, List.map_append]
  rw [filter_mod_segment_rel, filter_mod_segment_rel,
    filter_mod_segment_rel, filter_mod_segment_rel]

/-- A modifier-preserving permutation of the six keycode slots produces
no events. -/
lemma diff_eq_nil_of_perm (a b : Report) (hlen : a.keycode.length = 6)
    (hm : a.modifiers = b.modifiers) (hp : a.keycode.Perm b.keycode) :
    apple_spi_kbd_diff a b = [] := by
  rw [apple_spi_kbd_diff]
  have h1 : apple_spi_kbd_service_modifiers a.modifiers b.modifiers
      = [] := by
    rw [hm, apple_spi_kbd_service_modifiers, Nat.xor_self]
    simp
  have hblen : b.keycode.length = 6 := hp.length_eq ▸ hlen
  have h2 : apple_spi_kbd_service_keys a.keycode b.keycode = [] := by
    rw [apple_spi_kbd_service_keys, List.flatMap_eq_nil_iff]
    intro i hi
    rw [List.mem_range] at hi
    have hia : i < a.keycode.length := by omega
    have hib : i < b.keycode.length := by omega
    have hma : a.keycode.getD i 0 ∈ a.keycode := by
      rw [List.getD_eq_getElem _ _ hia]; exact List.getElem_mem hia
    have hmb : b.keycode.getD i 0 ∈ b.keycode := by
      rw [List.getD_eq_getElem _ _ hib]; exact List.getElem_mem hib
    have ca : b.keycode.contains (a.keycode.getD i 0) = true := by
      simpa [List.elem_iff] using hp.mem_iff.mp hma
    have cb : a.keycode.contains (b.keycode.getD i 0) = true := by
      simpa [List.elem_iff] using hp.mem_iff.mpr hmb
    rw [service_key_rel, service_key_prs, releaseEventSpec,
      pressEventSpec, ca, cb]
    rfl
  rw [h1, h2]
  rfl

end AppleSpiKbd

namespace AppleSpiKbd

/-- The selected table is always one of the three registered tables. -/
lemma selectTable_eq_cases (m : Nat) :
    selectTable m = hid_kbd_ctrl_xlate ∨
    selectTable m = hid_kbd_shift_xlate ∨
    selectTable m = hid_kbd_plain_xlate := by
  unfold selectTable
  split
  · exact Or.inl rfl
  · split
    · exact Or.inr (Or.inl rfl)
    · exact Or.inr (Or.inr rfl)

/-- Each registered table holds 57 entries. -/
lemma selectTable_length (m : Nat) : (selectTable m).length = 57 := by
  rcases selectTable_eq_cases m with h | h | h <;> rw [h] <;> rfl

end AppleSpiKbd

/-! ### Claim theorems -/

namespace AppleSpiKbd

/-- C1: the claim that no event ever carries keycode 0 is contradicted
by the code: for a previous report whose slots are all 0 and a current
report whose six slots are all non-zero, the membership scan fails to
find 0 in the current array and the differ emits a keycode-0 release
event for every slot (the events with `keycode := 0` below). -/
theorem diff_emits_zero_keycode_events :
    apple_spi_kbd_diff ⟨1, 0, 0, [0, 0, 0, 0, 0, 0], 0⟩
        ⟨1, 0, 0, [1, 2, 3, 4, 5, 6], 0⟩ =
      [⟨0, false⟩, ⟨1, true⟩, ⟨0, false⟩, ⟨2, true⟩,
       ⟨0, false⟩, ⟨3, true⟩, ⟨0, false⟩, ⟨4, true⟩,
       ⟨0, false⟩, ⟨5, true⟩, ⟨0, false⟩, ⟨6, true⟩] := by
  decide

/-- C3: the key-slot loop emits a release event exactly for each slot
index whose previous value appears nowhere in the current array, and a
press event exactly for each slot index whose current value appears
nowhere in the previous array (membership by value); and on the spec's
end-to-end scenario the differ yields exactly `[(5, true)]` and then
exactly `[(4, false)]`. -/
theorem diff_key_transitions :
    (∀ a b : Report,
      ((apple_spi_kbd_service_keys a.keycode b.keycode).filter
          fun e => !e.pressed)
        = ((List.range 6).filter
            fun i => !(b.keycode.contains (a.keycode.getD i 0))).map
            (fun i => (⟨a.keycode.getD i 0, false⟩ : KeyEvent)) ∧
      ((apple_spi_kbd_service_keys a.keycode b.keycode).filter
          fun e => e.pressed)
        = ((List.range 6).filter
            fun i => !(a.keycode.contains (b.keycode.getD i 0))).map
            (fun i => (⟨b.keycode.getD i 0, true⟩ : KeyEvent)))
    ∧ apple_spi_kbd_diff ⟨1, 0, 0, [4, 0, 0, 0, 0, 0], 0⟩
        ⟨1, 0, 0, [4, 5, 0, 0, 0, 0], 0⟩ = [⟨5, true⟩]
    ∧ apple_spi_kbd_diff ⟨1, 0, 0, [4, 5, 0, 0, 0, 0], 0⟩
        ⟨1, 0, 0, [5, 0, 0, 0, 0, 0], 0⟩ = [⟨4, false⟩] := by
  refine ⟨fun a b => ⟨?_, ?_⟩, by decide, by decide⟩
  · rw [apple_spi_kbd_service_keys]
    exact filter_keys_not_pressed (List.range 6) a.keycode b.keycode
  · rw [apple_spi_kbd_service_keys]
    exact filter_keys_pressed (List.range 6) a.keycode b.keycode

/-- C4: the differ's output is, in order: one event per tracked modifier
bit that differs (bits 0x01, 0x10, 0x02, 0x20, emitted in the fixed
order left-ctrl, right-ctrl, left-shift, right-shift, with keycodes
0xe0, 0xe4, 0xe1, 0xe5 and `pressed` equal to the bit's new value),
followed by the six key slots in array order, each slot's release check
before its press check. -/
theorem diff_equals_ordered_spec (a b : Report) :
    apple_spi_kbd_diff a b = diffSpec a b :=
  diff_eq_diffSpec a b

/-- C5 counterexample: on previous modifiers 0b00000000 and current
modifiers 0b00100010 the differ does not emit `(0xe4, true)` then
`(0xe1, true)` — bits 1 and 5 are left-shift and right-shift, not
right-ctrl and left-shift. -/
theorem modifier_ordering_claim_false :
    apple_spi_kbd_diff ⟨1, 0, 0, [0, 0, 0, 0, 0, 0], 0⟩
        ⟨1, 0x22, 0, [0, 0, 0, 0, 0, 0], 0⟩ ≠
      [⟨0xe4, true⟩, ⟨0xe1, true⟩] := by
  decide

/-- C5 amended: on previous modifiers 0b00000000 and current modifiers
0b00100010 (left-shift and right-shift newly set) with identical keycode
slots, the differ emits exactly two events, in order `(0xe1, true)` then
`(0xe5, true)`. -/
theorem modifier_ordering_amended :
    apple_spi_kbd_diff ⟨1, 0, 0, [0, 0, 0, 0, 0, 0], 0⟩
        ⟨1, 0x22, 0, [0, 0, 0, 0, 0, 0], 0⟩ =
      [⟨0xe1, true⟩, ⟨0xe5, true⟩] := by
  decide

/-- C6: the differ is idempotent — `diff r r` is empty for every
six-slot report — and rollover-tolerant: whenever the modifier bytes
agree and the current slots are a permutation of the previous slots, no
event is produced. -/
theorem diff_idempotent_rollover :
    (∀ r : Report, r.keycode.length = 6 →
      apple_spi_kbd_diff r r = []) ∧
    (∀ a b : Report, a.keycode.length = 6 → a.modifiers = b.modifiers →
      a.keycode.Perm b.keycode → apple_spi_kbd_diff a b = []) :=
  ⟨fun r h => diff_eq_nil_of_perm r r h rfl (List.Perm.refl _),
   fun a b h hm hp => diff_eq_nil_of_perm a b h hm hp⟩

/-- Witness for C6 at concrete reports: a rotated slot array with equal
modifiers produces no events, and a report diffed against itself
produces no events. -/
theorem diff_idempotent_rollover_witness :
    apple_spi_kbd_diff ⟨1, 3, 0, [4, 5, 0, 0, 0, 0], 0⟩
        ⟨1, 3, 0, [5, 0, 4, 0, 0, 0], 0⟩ = [] ∧
    apple_spi_kbd_diff ⟨1, 7, 0, [9, 9, 0, 0, 0, 0], 0⟩
        ⟨1, 7, 0, [9, 9, 0, 0, 0, 0], 0⟩ = [] :=
  ⟨diff_idempotent_rollover.2 _ _ (by decide) rfl (by decide),
   diff_idempotent_rollover.1 _ (by decide)⟩

/-- C7: the release events of `diff a b` are exactly the press events of
`diff b a` with the `pressed` flag inverted (and, instantiating the
theorem with the reports swapped, vice versa). -/
theorem diff_symmetry (a b : Report) :
    (apple_spi_kbd_diff a b).filter (fun e => !e.pressed) =
      ((apple_spi_kbd_diff b a).filter fun e => e.pressed).map
        fun e => (⟨e.keycode, !e.pressed⟩ : KeyEvent) := by
  rw [apple_spi_kbd_diff, apple_spi_kbd_diff, apple_spi_kbd_service_keys,
    apple_spi_kbd_service_keys, List.filter_append, List.filter_append,
    List.map_append]
  congr 1
  · exact filter_mods_not_pressed a.modifiers b.modifiers
  · rw [filter_keys_not_pressed, filter_keys_pressed, List.map_map]
    rfl

/-- C2: the framer yields a report if and only if all the checks hold —
flags 0x20, packet device 0x01, message type 0x10, message device 0x01,
cmdlen equal to the 10-byte report size, report id 0x01; a packet whose
flags differ from 0x20 is rejected whatever the other fields hold; and a
rejected call emits no event, leaves the stored reports untouched and
returns 0. -/
theorem frame_validation (p : Packet) (priv : Priv) :
    ((frame p).isSome ↔
      (p.flags = 0x20 ∧ p.device = 0x01 ∧ p.data.getD 0 0 = 0x10 ∧
        p.data.getD 1 0 = 0x01 ∧ msgCmdlen p.data = 10 ∧
        (parseReport p.data).reportid = 0x01)) ∧
    (p.flags ≠ 0x20 → frame p = none) ∧
    (frame p = none → apple_spi_kbd_check priv p = (priv, [], 0)) := by
  refine ⟨?_, ?_, ?_⟩
  · rw [frame]
    split <;>
      simp_all [PACKET_READ, KBD_DEVICE, MSG_REPORT, KBD_REPORTID]
  · intro h
    rw [frame, if_neg]
    intro hc
    exact h hc.1
  · intro h
    simp [apple_spi_kbd_check, h]

/-- Witness for C2: a packet whose payload satisfies every embedded
check but whose flags byte is 0 is rejected, and the rejecting call
leaves the stored reports unchanged, emits nothing and returns 0. -/
theorem frame_validation_witness :
    frame ⟨0, 1, 0, 0, 0,
        [0x10, 1, 0, 0, 0, 0, 10, 0, 1, 0, 0, 0, 0, 0, 0, 0, 0, 0],
        0⟩ = none ∧
    apple_spi_kbd_check
        ⟨⟨1, 0, 0, [4, 0, 0, 0, 0, 0], 0⟩,
         ⟨1, 0, 0, [4, 0, 0, 0, 0, 0], 0⟩⟩
        ⟨0, 1, 0, 0, 0,
          [0x10, 1, 0, 0, 0, 0, 10, 0, 1, 0, 0, 0, 0, 0, 0, 0, 0, 0],
          0⟩ =
      (⟨⟨1, 0, 0, [4, 0, 0, 0, 0, 0], 0⟩,
        ⟨1, 0, 0, [4, 0, 0, 0, 0, 0], 0⟩⟩, [], 0) :=
  ⟨(frame_validation
      ⟨0, 1, 0, 0, 0,
        [0x10, 1, 0, 0, 0, 0, 10, 0, 1, 0, 0, 0, 0, 0, 0, 0, 0, 0], 0⟩
      ⟨⟨1, 0, 0, [4, 0, 0, 0, 0, 0], 0⟩,
       ⟨1, 0, 0, [4, 0, 0, 0, 0, 0], 0⟩⟩).2.1 (by decide),
   (frame_validation
      ⟨0, 1, 0, 0, 0,
        [0x10, 1, 0, 0, 0, 0, 10, 0, 1, 0, 0, 0, 0, 0, 0, 0, 0, 0], 0⟩
      ⟨⟨1, 0, 0, [4, 0, 0, 0, 0, 0], 0⟩,
       ⟨1, 0, 0, [4, 0, 0, 0, 0, 0], 0⟩⟩).2.2 (by decide)⟩

/-- C10: a poll cycle that accepts a frame (returns 1) leaves the stored
previous report equal to the stored current report, both being the
just-accepted report, and feeding the identical frame again produces no
events. -/
theorem check_updates_old_report (priv : Priv) (p : Packet)
    (h : (apple_spi_kbd_check priv p).2.2 = 1) :
    (apple_spi_kbd_check priv p).1.old =
      (apple_spi_kbd_check priv p).1.new ∧
    frame p = some (apple_spi_kbd_check priv p).1.new ∧
    (apple_spi_kbd_check (apple_spi_kbd_check priv p).1 p).2.1 = [] := by
  cases hf : frame p with
  | none => simp [apple_spi_kbd_check, hf] at h
  | some r =>
    have hr : r = parseReport p.data := by
      rw [frame] at hf
      split at hf
      · exact (Option.some.inj hf).symm
      · exact absurd hf (by simp)
    have hlen : r.keycode.length = 6 := by rw [hr]; rfl
    refine ⟨by simp [apple_spi_kbd_check, hf],
      by simp [apple_spi_kbd_check, hf], ?_⟩
    simp only [apple_spi_kbd_check, hf]
    exact diff_eq_nil_of_perm r r hlen rfl (List.Perm.refl _)

/-- Witness for C10: a concrete accepted frame (key 4 held) leaves both
stored reports equal to the accepted report, and the repeated identical
frame yields no events. -/
theorem check_updates_old_report_witness :
    (apple_spi_kbd_check
        ⟨⟨0, 0, 0, [0, 0, 0, 0, 0, 0], 0⟩,
         ⟨0, 0, 0, [0, 0, 0, 0, 0, 0], 0⟩⟩
        ⟨0x20, 1, 0, 0, 0,
          [0x10, 1, 0, 0, 0, 0, 10, 0, 1, 0, 0, 4, 0, 0, 0, 0, 0, 0],
          0⟩).1.old =
      (apple_spi_kbd_check
        ⟨⟨0, 0, 0, [0, 0, 0, 0, 0, 0], 0⟩,
         ⟨0, 0, 0, [0, 0, 0, 0, 0, 0], 0⟩⟩
        ⟨0x20, 1, 0, 0, 0,
          [0x10, 1, 0, 0, 0, 0, 10, 0, 1, 0, 0, 4, 0, 0, 0, 0, 0, 0],
          0⟩).1.new ∧
    frame ⟨0x20, 1, 0, 0, 0,
        [0x10, 1, 0, 0, 0, 0, 10, 0, 1, 0, 0, 4, 0, 0, 0, 0, 0, 0],
        0⟩ =
      some (apple_spi_kbd_check
        ⟨⟨0, 0, 0, [0, 0, 0, 0, 0, 0], 0⟩,
         ⟨0, 0, 0, [0, 0, 0, 0, 0, 0], 0⟩⟩
        ⟨0x20, 1, 0, 0, 0,
          [0x10, 1, 0, 0, 0, 0, 10, 0, 1, 0, 0, 4, 0, 0, 0, 0, 0, 0],
          0⟩).1.new ∧
    (apple_spi_kbd_check
        (apple_spi_kbd_check
          ⟨⟨0, 0, 0, [0, 0, 0, 0, 0, 0], 0⟩,
           ⟨0, 0, 0, [0, 0, 0, 0, 0, 0], 0⟩⟩
          ⟨0x20, 1, 0, 0, 0,
            [0x10, 1, 0, 0, 0, 0, 10, 0, 1, 0, 0, 4, 0, 0, 0, 0, 0, 0],
            0⟩).1
        ⟨0x20, 1, 0, 0, 0,
          [0x10, 1, 0, 0, 0, 0, 10, 0, 1, 0, 0, 4, 0, 0, 0, 0, 0, 0],
          0⟩).2.1 = [] :=
  check_updates_old_report _ _ (by decide)

/-- C8 (table selection modelled from the spec, tables from the source):
selection is by fixed priority — any ctrl modifier bit selects the ctrl
table even when shift bits are also set, otherwise any shift bit selects
the shift table, otherwise the plain table — and keycode 4 translates to
0x01 under left-ctrl (also with left-shift added), to 0x41 under
left-shift, and to 0x61 with no modifiers. -/
theorem translator_priority :
    (∀ m : Nat, m &&& (HID_MOD_LEFTCTRL ||| HID_MOD_RIGHTCTRL) ≠ 0 →
      selectTable m = hid_kbd_ctrl_xlate) ∧
    (∀ m : Nat, m &&& (HID_MOD_LEFTCTRL ||| HID_MOD_RIGHTCTRL) = 0 →
      m &&& (HID_MOD_LEFTSHIFT ||| HID_MOD_RIGHTSHIFT) ≠ 0 →
      selectTable m = hid_kbd_shift_xlate) ∧
    (∀ m : Nat, m &&& (HID_MOD_LEFTCTRL ||| HID_MOD_RIGHTCTRL) = 0 →
      m &&& (HID_MOD_LEFTSHIFT ||| HID_MOD_RIGHTSHIFT) = 0 →
      selectTable m = hid_kbd_plain_xlate) ∧
    kbd_translate 4 0x01 = some 0x01 ∧
    kbd_translate 4 0x03 = some 0x01 ∧
    kbd_translate 4 0x02 = some 0x41 ∧
    kbd_translate 4 0 = some 0x61 := by
  refine ⟨?_, ?_, ?_, by decide, by decide, by decide, by decide⟩
  · intro m hm
    unfold selectTable
    rw [if_pos (by simpa using hm)]
  · intro m h1 h2
    unfold selectTable
    rw [if_neg (by simp [h1]), if_pos (by simpa using h2)]
  · intro m h1 h2
    unfold selectTable
    rw [if_neg (by simp [h1]), if_neg (by simp [h2])]

/-- Witness for C8: ctrl with shift also held selects the ctrl table,
shift alone the shift table, an untracked modifier byte the plain
table. -/
theorem translator_priority_witness :
    selectTable 0x13 = hid_kbd_ctrl_xlate ∧
    selectTable 0x22 = hid_kbd_shift_xlate ∧
    selectTable 0x40 = hid_kbd_plain_xlate :=
  ⟨translator_priority.1 0x13 (by decide),
   translator_priority.2.1 0x22 (by decide) (by decide),
   translator_priority.2.2.1 0x40 (by decide) (by decide)⟩

/-- C9 counterexample: the claimed lookup `table (keycode - 4)` for
keycodes in [4, 60] disagrees with the translator at keycode 4 with no
modifiers — under the claimed formula entry 0 is the 0xff sentinel and
nothing is produced, while the translator yields 0x61, the value the
spec's own test vector demands. -/
theorem lookup_shift_by_four_false :
    lookupSpecC9 4 0 = none ∧ kbd_translate 4 0 = some 0x61 ∧
    lookupSpecC9 4 0 ≠ kbd_translate 4 0 := by
  decide

/-- C9 amended: the lookup indexes the 57-entry selected table by the
keycode itself — keycodes at or beyond 57 (including the modifier
identity keycodes 0xe0–0xe5) yield nothing, keycodes 0–3 yield nothing
because their table entries are the 0xff sentinel, an in-range entry
equal to 0xff yields nothing, and any other in-range entry is returned
as the character. -/
theorem translator_range_and_sentinel :
    (∀ kc m : Nat, 57 ≤ kc → kbd_translate kc m = none) ∧
    (∀ kc m : Nat, kc < 4 → kbd_translate kc m = none) ∧
    (∀ kc m : Nat, kc < 57 → (selectTable m).getD kc 0 = 0xff →
      kbd_translate kc m = none) ∧
    (∀ kc m : Nat, kc < 57 → (selectTable m).getD kc 0 ≠ 0xff →
      kbd_translate kc m = some ((selectTable m).getD kc 0)) := by
  have hsome : ∀ kc m : Nat, kc < 57 →
      (selectTable m)[kc]? = some ((selectTable m).getD kc 0) := by
    intro kc m hlt
    have hl : kc < (selectTable m).length := by
      rw [selectTable_length]; exact hlt
    rw [List.getD_eq_getElem _ _ hl, List.getElem?_eq_getElem hl]
  refine ⟨?_, ?_, ?_, ?_⟩
  · intro kc m h
    have hn : (selectTable m)[kc]? = none :=
      List.getElem?_eq_none (by rw [selectTable_length]; exact h)
    unfold kbd_translate
    rw [hn]
  · intro kc m h
    have hff : (selectTable m).getD kc 0 = 0xff := by
      rcases selectTable_eq_cases m with hs | hs | hs <;> rw [hs] <;>
        interval_cases kc <;> rfl
    unfold kbd_translate
    rw [hsome kc m (by omega)]
    show (if (selectTable m).getD kc 0 = 0xff then none else
      some ((selectTable m).getD kc 0)) = (none : Option Nat)
    rw [if_pos hff]
  · intro kc m hlt hff
    unfold kbd_translate
    rw [hsome kc m hlt]
    show (if (selectTable m).getD kc 0 = 0xff then none else
      some ((selectTable m).getD kc 0)) = (none : Option Nat)
    rw [if_pos hff]
  · intro kc m hlt hff
    unfold kbd_translate
    rw [hsome kc m hlt]
    show (if (selectTable m).getD kc 0 = 0xff then none else
        some ((selectTable m).getD kc 0)) =
      some ((selectTable m).getD kc 0)
    rw [if_neg hff]

/-- Witness for C9 amended: left-shift's identity keycode 0xe1 and an
out-of-range keycode translate to nothing, keycode 1 hits the sentinel,
and keycode 5 with no modifiers returns the plain table entry. -/
theorem translator_range_and_sentinel_witness :
    kbd_translate 0xe1 0 = none ∧ kbd_translate 100 0x10 = none ∧
    kbd_translate 1 0 = none ∧
    kbd_translate 5 0 = some ((selectTable 0).getD 5 0) :=
  ⟨translator_range_and_sentinel.1 0xe1 0 (by decide),
   translator_range_and_sentinel.1 100 0x10 (by decide),
   translator_range_and_sentinel.2.2.1 1 0 (by decide) (by decide),
   translator_range_and_sentinel.2.2.2 5 0 (by decide) (by decide)⟩

end AppleSpiKbd
